import Mathlib

/-!
Shallow embedding of the command interpreter and register encoders of
pywinkeyerdaemon.  The embedding follows `src/winkeyerdaemon.py`, the final
and most complete variant of the program (the spec designates it as the
implemented behaviour where the two historical variants differ, e.g. the
delay-vs-manual-PTT policy).

Conventions:
  * a received UDP frame is its decoded character list (`List Char`);
  * every `self.port.write(...)` of the Python source becomes one element
    of a `writes : List (List Nat)` field (one list of byte values per call);
  * every `printdbg(...)` call site becomes one `Log` constructor;
  * a Python exception aborts the handler; the `err` field records it while
    `state`/`writes` keep the side effects that happened before the raise;
  * Python ints are `Int`; `int(...)` string parsing is `pyInt?`;
    `chr` is `pychr` (`none` models the `ValueError` for out-of-range code
    points; code points this program feeds to `chr` from protocol-validated
    states are ≤ 99).
-/

set_option maxHeartbeats 1600000
set_option maxRecDepth 4000

namespace WKD

/-- Python `chr`: code point to character; `none` models the `ValueError`
raised for arguments outside `[0, 0x110000)`. -/
def pychr (n : Int) : Option Char :=
  if 0 ≤ n ∧ n < 1114112 then some (Char.ofNat n.toNat) else none

/-- characters of Python `string.whitespace`. -/
def pyIsSpace (c : Char) : Bool :=
  c = ' ' ∨ c = '\t' ∨ c = '\n' ∨ c = '\x0b' ∨ c = '\x0c' ∨ c = '\r'

/-- value of an ASCII digit string. -/
def digitsToNat (l : List Char) : Nat :=
  l.foldl (fun a c => 10 * a + (c.toNat - 48)) 0

/-- Python `int(str)` on ASCII input: optional surrounding whitespace,
optional sign, nonempty digit run; `none` models the `ValueError`. -/
def pyInt? (s : List Char) : Option Int :=
  match ((s.dropWhile pyIsSpace).reverse.dropWhile pyIsSpace).reverse with
  | '+' :: ds =>
    if ds ≠ [] ∧ ds.all Char.isDigit then some (digitsToNat ds) else none
  | '-' :: ds =>
    if ds ≠ [] ∧ ds.all Char.isDigit then some (-(digitsToNat ds : Int)) else none
  | ds =>
    if ds ≠ [] ∧ ds.all Char.isDigit then some (digitsToNat ds) else none

/-- `ESC = chr(27)` of the source. -/
def ESC : Char := Char.ofNat 27

/-- `chr(0)`. -/
def NUL : Char := Char.ofNat 0

/-- `WK_SIDETONE_FREQUENCIES = tuple(sorted(WK_SIDETONE_CODES))`. -/
def WK_SIDETONE_FREQUENCIES : List Int :=
  [400, 444, 500, 571, 666, 800, 1000, 1333, 2000, 4000]

/-- the `WK_SIDETONE_CODES` dict as a lookup (unsupported keys, which the
source would answer with a `KeyError`, give `0`; they are unreachable). -/
def wk_code (f : Int) : Nat :=
  if f = 4000 then 0x1 else if f = 2000 then 0x2 else if f = 1333 then 0x3
  else if f = 1000 then 0x4 else if f = 800 then 0x5 else if f = 666 then 0x6
  else if f = 571 then 0x7 else if f = 500 then 0x8 else if f = 444 then 0x9
  else if f = 400 then 0xa else 0

/-- the `for i, current_freq in enumerate(WK_SIDETONE_FREQUENCIES[:-1])`
loop of `wk_sidetone_code`: walk adjacent pairs, stop at the first pair
whose upper end exceeds `freq`, choose by the strict `<` distance test. -/
def sidetone_scan (freq : Int) : List Int → Option Int
  | a :: b :: rest =>
    if freq < b then
      if freq - a < b - freq then some a else some b
    else sidetone_scan freq (b :: rest)
  | _ => none

/-- `wk_sidetone_code` of the source: clamp to the extremes, otherwise scan
adjacent supported frequencies (`min_freq = 400`, `max_freq = 4000` are the
min/max of `WK_SIDETONE_FREQUENCIES`). -/
def wk_sidetone_code (freq : Int) : Nat :=
  if freq ≤ 400 then wk_code 400
  else if 4000 ≤ freq then wk_code 4000
  else
    match sidetone_scan freq WK_SIDETONE_FREQUENCIES with
    | some f => wk_code f
    | none => 0

/-- distance between integers, written with `if` so that `omega` can use it. -/
def idist (a b : Int) : Int := if a ≤ b then b - a else a - b

/-- Specification-side description of quantization: the supported frequency
closest to `freq`; on equal distance the later (higher) frequency of the
ascending table wins.  Used to compare `wk_sidetone_code` against the
spec's "closest supported frequency" wording. -/
def closest_supported (freq : Int) : Int :=
  WK_SIDETONE_FREQUENCIES.foldl
    (fun best f => if idist freq f ≤ idist freq best then f else best) 400

/-- `winkeyer_weighting` of the source:
`int(cwdaemon_value*(90 - 10)/(50 - -50)) + 50`.  For `|v| ≤ 50` the float
expression `v*80/100` is within `2^-45` of the exact rational `4v/5`, whose
fractional part is `0` or at least `1/5`, and when it is `0` the float
division is exact; hence Python's toward-zero `int(...)` equals toward-zero
integer division `Int.div (v * 80) 100`. -/
def winkeyer_weighting (v : Int) : Int := Int.tdiv (v * 80) 100 + 50

/-- Modelled from the spec: the map the spec claims the source computes,
`round(value * (90-10)/(50-(-50))) + 50` with round-to-nearest.  Written
for comparison with `winkeyer_weighting`. -/
def winkeyer_weighting_round_spec (v : Int) : Int :=
  round ((v : ℚ) * ((90 : ℚ) - 10) / ((50 : ℚ) - (-50))) + 50

/-- `WK_ULTIMATIC_PRIORITY_CODES` keys. -/
inductive UltimaticPriority
  | normal
  | dahs
  | dits
deriving DecidableEq

/-- `WK_ULTIMATIC_PRIORITY_CODES` dict. -/
def WK_ULTIMATIC_PRIORITY_CODES : UltimaticPriority → Nat
  | .normal => 0b00
  | .dahs => 0b01
  | .dits => 0b10

/-- `WK_HANG_TIME_CODES` dict (keys outside the table, which the source
guards with an assert, give `0`). -/
def WK_HANG_TIME_CODES (h : Nat) : Nat :=
  if h = 1 then 0b00 else if h = 2 then 0b01
  else if h = 4 then 0b10 else if h = 8 then 0b11 else 0

/-- `WK_PINCONFIG_KEY_BITS` dict: `[corrected][key]` → bit position. -/
def WK_PINCONFIG_KEY_BITS (corrected : Bool) (key : Nat) : Nat :=
  if corrected then (if key = 1 then 3 else 2)
  else (if key = 1 then 2 else 3)

/-- the instance fields read by `WinKeyer._set_pinconfig` when it packs the
pinconfig register byte. -/
structure PinConfig where
  sidetone_enable : Bool
  key1_enable : Bool
  key2_enable : Bool
  ptt_enable : Bool
  ultimatic_priority : UltimaticPriority
  hang_time : Nat
deriving DecidableEq

/-- Python `int(bool)`. -/
def b2n (b : Bool) : Nat := if b then 1 else 0

/-- the `data` byte computed by `WinKeyer._set_pinconfig` (lines 318-331 of
the source) and written after command byte `0x09`. -/
def pinconfig_data (corrected : Bool) (c : PinConfig) : Nat :=
  ((WK_ULTIMATIC_PRIORITY_CODES c.ultimatic_priority &&& 0b11) <<< 6)
  ||| ((WK_HANG_TIME_CODES c.hang_time &&& 0b11) <<< 4)
  ||| ((b2n c.key2_enable &&& 0b1) <<< WK_PINCONFIG_KEY_BITS corrected 2)
  ||| ((b2n c.key1_enable &&& 0b1) <<< WK_PINCONFIG_KEY_BITS corrected 1)
  ||| ((b2n c.sidetone_enable &&& 0b1) <<< 1)
  ||| ((b2n c.ptt_enable &&& 0b1) <<< 0)

/-- the three process-wide mutable variables `state_speed`, `state_ptt`,
`state_delay` (SessionState of the spec). -/
structure SessionState where
  speed : Int
  ptt : Bool
  delay : Int
deriving DecidableEq

/-- Python exceptions the handler can raise. -/
inductive PyError
  | typeError
  | valueError
  | indexError
  | assertionError
deriving DecidableEq

/-- one constructor per `printdbg` call site of `CwdaemonServer.handle` and
of the `WinKeyer` methods it reaches. -/
inductive Log
  | nulWarningMsg
  | setDefaultsNotImplemented
  | setSpeedMsg
  | setToneMsg
  | toneArgMsg
  | abortMessageMsg
  | exitDaemonNotImplemented
  | uninterruptibleNotImplemented
  | cwdaemonWeightingMsg
  | weightingOutOfRangeMsg
  | setDeviceNotImplemented
  | obsoleteCommandMsg
  | unsupportedPttValueMsg
  | pttDisabledByDelayMsg
  | ssbNotImplemented
  | tuneSecondsMsg
  | longTuneMsg
  | tuneZeroIgnoredMsg
  | tuneOutOfRangeMsg
  | setDelayMsg
  | delaySetToMsg
  | delayNotImplementedMsg
  | bandindexNotImplemented
  | soundDeviceNotImplemented
  | soundcardVolumeNotImplemented
  | echoNotImplemented
  | messageMsg
  | trailingWhitespaceMsg
  | prosignsExpandedMsg
  | speedControlsExpandedMsg
  | speedControlsIgnoredMsg
  | weightingEncoderOutOfRangeMsg
deriving DecidableEq

/-- observable outcome of handling one frame: the session state after the
handler returns (or after the exception unwound), the completed serial
writes in order, the log messages in order, and the exception if one was
raised. -/
structure HandleResult where
  state : SessionState
  writes : List (List Nat)
  logs : List Log
  err : Option PyError
deriving DecidableEq

/-- `WinKeyer.set_weighting`: warn when outside 10..90, clamp, write
`chr(0x03) + chr(weighting)`.  Returns (logs, writes). -/
def set_weighting (w : Int) : List Log × List (List Nat) :=
  ((if ¬ (10 ≤ w ∧ w ≤ 90) then [Log.weightingEncoderOutOfRangeMsg] else []),
   [[0x03, (if (if w < 10 then (10 : Int) else w) > 90 then (90 : Int)
            else (if w < 10 then (10 : Int) else w)).toNat]])

/-- `WHITESPACE_TO_STRIP = string.whitespace.replace(' ', '')`. -/
def WHITESPACE_TO_STRIP : List Char := ['\t', '\n', '\x0b', '\x0c', '\r']

/-- Python `data.rstrip(WHITESPACE_TO_STRIP)`. -/
def rstrip (l : List Char) : List Char :=
  (l.reverse.dropWhile (· ∈ WHITESPACE_TO_STRIP)).reverse

/-- the `TABLE` of `_expand_cwdaemon_prosigns_for_winkeyer`. -/
def prosignTable (c : Char) : Option (List Char) :=
  if c = '*' then some ['A', 'R']
  else if c = '=' then some ['B', 'T']
  else if c = '<' then some ['S', 'K']
  else if c = '(' then some ['K', 'N']
  else if c = '!' then some ['S', 'N']
  else if c = '&' then some ['A', 'S']
  else if c = '>' then some ['B', 'K']
  else none

/-- `_expand_cwdaemon_prosigns_for_winkeyer`: each table character becomes
`MERGE_LETTERS = "\x1b"` plus its two-letter expansion. -/
def expandProsigns : List Char → List Char
  | [] => []
  | c :: rest =>
    match prosignTable c with
    | some t => '\x1b' :: (t ++ expandProsigns rest)
    | none => c :: expandProsigns rest

/-- the `for nextchar in data` loop of the speed-delta expansion
(`MIN_SPEED, MAX_SPEED = 5, 99`): returns the final working speed and the
accumulated `speed_message_data`, or the exception `chr` raised. -/
def speed_scan (s : Int) : List Char → Except PyError (Int × List Char)
  | [] => .ok (s, [])
  | c :: rest =>
    if c = '+' then
      if s ≠ 0 then
        match pychr (if 97 < s then 99 else s + 2) with
        | none => .error .valueError
        | some ch =>
          match speed_scan (if 97 < s then 99 else s + 2) rest with
          | .error e => .error e
          | .ok (fs, out) => .ok (fs, '\x1c' :: ch :: out)
      else speed_scan s rest
    else if c = '-' then
      if s ≠ 0 then
        match pychr (if s < 7 then 5 else s - 2) with
        | none => .error .valueError
        | some ch =>
          match speed_scan (if s < 7 then 5 else s - 2) rest with
          | .error e => .error e
          | .ok (fs, out) => .ok (fs, '\x1c' :: ch :: out)
      else speed_scan s rest
    else
      match speed_scan s rest with
      | .error e => .error e
      | .ok (fs, out) => .ok (fs, c :: out)

/-- the whole in-line speed-delta expansion step (source lines 614-650):
only triggered when the payload contains `+` or `-`; after the scan a
`CANCEL_BUFFERED_SPEED_CHANGE = "\x1e"` byte is appended when the final
working speed is nonzero. -/
def speed_expand (s : Int) (data : List Char) : Except PyError (List Char) :=
  if '+' ∈ data ∨ '-' ∈ data then
    match speed_scan s data with
    | .error e => .error e
    | .ok (fs, out) => .ok (if fs ≠ 0 then out ++ ['\x1e'] else out)
  else .ok data

/-- Specification-side description of the speed-delta scan for a positive
starting speed: `+` becomes `0x1c` then `min(previous+2, 99)` as a raw
byte, `-` becomes `0x1c` then `max(previous-2, 5)`, everything else passes
through.  Used to compare `speed_scan` against the spec's wording. -/
def specDeltaScan (s : Int) : List Char → List Char
  | [] => []
  | c :: rest =>
    if c = '+' then
      '\x1c' :: Char.ofNat (min (s + 2) 99).toNat :: specDeltaScan (min (s + 2) 99) rest
    else if c = '-' then
      '\x1c' :: Char.ofNat (max (s - 2) 5).toNat :: specDeltaScan (max (s - 2) 5) rest
    else c :: specDeltaScan s rest

/-- `WinKeyer.send`: `self.port.write(msg.upper().encode())` (ASCII upper). -/
def sendBytes (l : List Char) : List Nat := l.map (fun c => c.toUpper.toNat)

/-- the text-message branch of `CwdaemonServer.handle` (source lines
600-652): log, strip trailing non-space whitespace, expand prosigns,
expand in-line speed deltas, then send. -/
def handleText (st : SessionState) (data0 : List Char) : HandleResult :=
  let stripped := rstrip data0
  let logsA :=
    [Log.messageMsg]
      ++ (if stripped ≠ data0 then [Log.trailingWhitespaceMsg] else [])
      ++ [Log.messageMsg]
  let expanded := expandProsigns stripped
  let logsB :=
    logsA ++ (if expanded ≠ stripped then [Log.prosignsExpandedMsg, Log.messageMsg] else [])
  if '+' ∈ expanded ∨ '-' ∈ expanded then
    match speed_scan st.speed expanded with
    | .error e => { state := st, writes := [], logs := logsB, err := some e }
    | .ok (fs, out) =>
      if fs ≠ 0 then
        { state := st, writes := [sendBytes (out ++ ['\x1e'])],
          logs := logsB ++ [Log.speedControlsExpandedMsg, Log.messageMsg], err := none }
      else
        { state := st, writes := [sendBytes out],
          logs := logsB ++ [Log.speedControlsIgnoredMsg, Log.messageMsg], err := none }
  else
    { state := st, writes := [sendBytes expanded], logs := logsB, err := none }

/-- escape `'2'` (set speed): `set_speed(int(speed))` mutates the session
state first, then `winkeyer.set_speed` asserts `0 <= speed <= 99` and
writes `chr(0x2) + chr(speed)`. -/
def escape2 (st : SessionState) (arg : List Char) : HandleResult :=
  match pyInt? arg with
  | none => ⟨st, [], [Log.setSpeedMsg], some .valueError⟩
  | some n =>
    if 0 ≤ n ∧ n ≤ 99 then
      ⟨{ st with speed := n }, [[0x2, n.toNat]], [Log.setSpeedMsg], none⟩
    else
      ⟨{ st with speed := n }, [], [Log.setSpeedMsg], some .assertionError⟩

/-- escape `'3'` (set tone), source lines 504-516: `tone = data[2:]` is a
`str`, so the range test `tone < 300 or tone > 1000` placed before
`tone = int(tone)` compares a `str` with an `int`, which raises
`TypeError` in Python 3 on every escape-`'3'` frame; the sidetone device
writes below that line are dead code. -/
def escape3 (st : SessionState) (_arg : List Char) : HandleResult :=
  ⟨st, [], [Log.setToneMsg, Log.toneArgMsg], some .typeError⟩

/-- escape `'7'` (weighting): parse, range-check -50..50, then
`winkeyer.set_weighting(winkeyer_weighting(weighting))`. -/
def escape7 (st : SessionState) (arg : List Char) : HandleResult :=
  match pyInt? arg with
  | none => ⟨st, [], [Log.cwdaemonWeightingMsg], some .valueError⟩
  | some w =>
    if -50 ≤ w ∧ w ≤ 50 then
      ⟨st, (set_weighting (winkeyer_weighting w)).2,
        Log.cwdaemonWeightingMsg :: (set_weighting (winkeyer_weighting w)).1, none⟩
    else
      ⟨st, [], [Log.cwdaemonWeightingMsg, Log.weightingOutOfRangeMsg], none⟩

/-- escape `'a'` (manual PTT), source lines 539-558: reject values outside
`"0"`/`"1"`; reject when `get_delay() > 0`; otherwise only act when the
requested state differs from `state_ptt`, writing `chr(0x18) + chr(0 or 1)`
and updating `state_ptt`. -/
def escapeA (st : SessionState) (arg : List Char) : HandleResult :=
  if arg ≠ ['0'] ∧ arg ≠ ['1'] then
    ⟨st, [], [Log.unsupportedPttValueMsg], none⟩
  else if 0 < st.delay then
    ⟨st, [], [Log.pttDisabledByDelayMsg], none⟩
  else if arg = ['0'] then
    if st.ptt then ⟨{ st with ptt := false }, [[0x18, 0]], [], none⟩
    else ⟨st, [], [], none⟩
  else
    if st.ptt then ⟨st, [], [], none⟩
    else ⟨{ st with ptt := true }, [[0x18, 1]], [], none⟩

/-- escape `'c'` (tune): `seconds = int(data[2:])` first, then range check
0..99; a nonzero tune calls `winkeyer.tune` which writes the abort byte
`chr(0xa)` and then `chr(0x19) + chr(seconds)`. -/
def escapeC (st : SessionState) (arg : List Char) : HandleResult :=
  match pyInt? arg with
  | none => ⟨st, [], [], some .valueError⟩
  | some n =>
    if 0 ≤ n ∧ n ≤ 99 then
      if n ≠ 0 then
        ⟨st, [[0xa], [0x19, n.toNat]],
          Log.tuneSecondsMsg :: (if 10 < n then [Log.longTuneMsg] else []), none⟩
      else ⟨st, [], [Log.tuneZeroIgnoredMsg], none⟩
    else ⟨st, [], [Log.tuneOutOfRangeMsg], none⟩

/-- escape `'d'` (set delay): log, `set_delay(int(delay))` with no range
check, two more logs. -/
def escapeD (st : SessionState) (arg : List Char) : HandleResult :=
  match pyInt? arg with
  | none => ⟨st, [], [Log.setDelayMsg], some .valueError⟩
  | some n =>
    ⟨{ st with delay := n }, [],
      [Log.setDelayMsg, Log.delaySetToMsg, Log.delayNotImplementedMsg], none⟩

/-- the `elif` chain on `data[1]` of `CwdaemonServer.handle`; a command
character outside the chain falls through with no effect and no log. -/
def handleEscape (st : SessionState) (cmd : Char) (arg : List Char) : HandleResult :=
  if cmd = '0' then ⟨st, [], [Log.setDefaultsNotImplemented], none⟩
  else if cmd = '2' then escape2 st arg
  else if cmd = '3' then escape3 st arg
  else if cmd = '4' then ⟨st, [[0xa]], [Log.abortMessageMsg], none⟩
  else if cmd = '5' then ⟨st, [], [Log.exitDaemonNotImplemented], none⟩
  else if cmd = '6' then ⟨st, [], [Log.uninterruptibleNotImplemented], none⟩
  else if cmd = '7' then escape7 st arg
  else if cmd = '8' then ⟨st, [], [Log.setDeviceNotImplemented], none⟩
  else if cmd = '9' then ⟨st, [], [Log.obsoleteCommandMsg], none⟩
  else if cmd = 'a' then escapeA st arg
  else if cmd = 'b' then ⟨st, [], [Log.ssbNotImplemented], none⟩
  else if cmd = 'c' then escapeC st arg
  else if cmd = 'd' then escapeD st arg
  else if cmd = 'e' then ⟨st, [], [Log.bandindexNotImplemented], none⟩
  else if cmd = 'f' then ⟨st, [], [Log.soundDeviceNotImplemented], none⟩
  else if cmd = 'g' then ⟨st, [], [Log.soundcardVolumeNotImplemented], none⟩
  else if cmd = 'h' then ⟨st, [], [Log.echoNotImplemented], none⟩
  else ⟨st, [], [], none⟩

/-- `data = data[:data.index(chr(0))]` when a NUL is present: truncate at
the first NUL. -/
def nullTruncate (l : List Char) : List Char := l.takeWhile (· ≠ NUL)

/-- `CwdaemonServer.handle` for one decoded frame: NUL truncation, then
`data[0] == ESC` classification (an empty truncated frame makes `data[0]`
raise `IndexError`, a lone ESC makes `data[1]` raise `IndexError`),
dispatching to the escape chain or the text pipeline. -/
def handle (st : SessionState) (raw : List Char) : HandleResult :=
  let lg : List Log := if NUL ∈ raw then [Log.nulWarningMsg] else []
  match nullTruncate raw with
  | [] => ⟨st, [], lg, some .indexError⟩
  | c :: rest =>
    if c = ESC then
      match rest with
      | [] => ⟨st, [], lg, some .indexError⟩
      | cmd :: arg =>
        let r := handleEscape st cmd arg
        ⟨r.state, r.writes, lg ++ r.logs, r.err⟩
    else
      let r := handleText st (c :: rest)
      ⟨r.state, r.writes, lg ++ r.logs, r.err⟩

/-! ## Helper lemmas -/

lemma closest_low (freq : Int) (h : freq ≤ 400) : closest_supported freq = 400 := by
  have c1 : ¬ (idist freq 444 ≤ idist freq 400) := by unfold idist; split_ifs <;> omega
  have c2 : ¬ (idist freq 500 ≤ idist freq 400) := by unfold idist; split_ifs <;> omega
  have c3 : ¬ (idist freq 571 ≤ idist freq 400) := by unfold idist; split_ifs <;> omega
  have c4 : ¬ (idist freq 666 ≤ idist freq 400) := by unfold idist; split_ifs <;> omega
  have c5 : ¬ (idist freq 800 ≤ idist freq 400) := by unfold idist; split_ifs <;> omega
  have c6 : ¬ (idist freq 1000 ≤ idist freq 400) := by unfold idist; split_ifs <;> omega
  have c7 : ¬ (idist freq 1333 ≤ idist freq 400) := by unfold idist; split_ifs <;> omega
  have c8 : ¬ (idist freq 2000 ≤ idist freq 400) := by unfold idist; split_ifs <;> omega
  have c9 : ¬ (idist freq 4000 ≤ idist freq 400) := by unfold idist; split_ifs <;> omega
  unfold closest_supported WK_SIDETONE_FREQUENCIES
  simp only [List.foldl]
  rw [if_pos (le_refl (idist freq 400)), if_neg c1, if_neg c2, if_neg c3, if_neg c4,
    if_neg c5, if_neg c6, if_neg c7, if_neg c8, if_neg c9]

lemma closest_high (freq : Int) (h : 4000 ≤ freq) : closest_supported freq = 4000 := by
  have c1 : idist freq 444 ≤ idist freq 400 := by unfold idist; split_ifs <;> omega
  have c2 : idist freq 500 ≤ idist freq 444 := by unfold idist; split_ifs <;> omega
  have c3 : idist freq 571 ≤ idist freq 500 := by unfold idist; split_ifs <;> omega
  have c4 : idist freq 666 ≤ idist freq 571 := by unfold idist; split_ifs <;> omega
  have c5 : idist freq 800 ≤ idist freq 666 := by unfold idist; split_ifs <;> omega
  have c6 : idist freq 1000 ≤ idist freq 800 := by unfold idist; split_ifs <;> omega
  have c7 : idist freq 1333 ≤ idist freq 1000 := by unfold idist; split_ifs <;> omega
  have c8 : idist freq 2000 ≤ idist freq 1333 := by unfold idist; split_ifs <;> omega
  have c9 : idist freq 4000 ≤ idist freq 2000 := by unfold idist; split_ifs <;> omega
  unfold closest_supported WK_SIDETONE_FREQUENCIES
  simp only [List.foldl]
  rw [if_pos (le_refl (idist freq 400)), if_pos c1, if_pos c2, if_pos c3, if_pos c4,
    if_pos c5, if_pos c6, if_pos c7, if_pos c8, if_pos c9]

lemma closest_mid0 : ∀ n : Nat, n < 900 →
    wk_sidetone_code (401 + (n : Int)) = wk_code (closest_supported (401 + (n : Int))) := by
  decide

lemma closest_mid1 : ∀ n : Nat, n < 900 →
    wk_sidetone_code (1301 + (n : Int)) = wk_code (closest_supported (1301 + (n : Int))) := by
  decide

lemma closest_mid2 : ∀ n : Nat, n < 900 →
    wk_sidetone_code (2201 + (n : Int)) = wk_code (closest_supported (2201 + (n : Int))) := by
  decide

lemma closest_mid3 : ∀ n : Nat, n < 899 →
    wk_sidetone_code (3101 + (n : Int)) = wk_code (closest_supported (3101 + (n : Int))) := by
  decide

lemma weighting_tdiv_aux : ∀ n : Nat, n < 101 →
    winkeyer_weighting ((n : Int) - 50)
      = (if 0 ≤ (n : Int) - 50 then (80 * ((n : Int) - 50)).ediv 100
         else -((80 * (-((n : Int) - 50))).ediv 100)) + 50 := by
  decide

lemma weighting_range_aux : ∀ n : Nat, n < 101 →
    (10 ≤ winkeyer_weighting ((n : Int) - 50) ∧ winkeyer_weighting ((n : Int) - 50) ≤ 90)
    ∧ set_weighting (winkeyer_weighting ((n : Int) - 50))
        = ([], [[0x03, (winkeyer_weighting ((n : Int) - 50)).toNat]]) := by
  decide

/-! ## Claim theorems -/

/-- C2 counterexample: 422 Hz is exactly equidistant between the adjacent
supported frequencies 400 and 444, yet `wk_sidetone_code` returns 444's
code, not 400's: the strict `<` comparison sends ties to the HIGHER
frequency, refuting the claim's tie-to-lower rule. -/
theorem sidetone_tie_counterexample :
    (422 : Int) - 400 = 444 - 422
    ∧ wk_sidetone_code 422 = wk_code 444
    ∧ wk_code 444 ≠ wk_code 400 := by
  decide

/-- C2 (amended): for every integer frequency, `wk_sidetone_code` returns
the code of the supported frequency closest to the input, with ties broken
toward the HIGHER of the two bracketing frequencies (`closest_supported`
replaces the running best exactly when the distance is ≤, so the later,
higher entry of the ascending table wins ties); inputs ≤ 400 get 400's
code and inputs ≥ 4000 get 4000's code, which `closest_supported` also
selects there. -/
theorem sidetone_quantization_closest (freq : Int) :
    wk_sidetone_code freq = wk_code (closest_supported freq) := by
  rcases le_or_lt freq 400 with h | h
  · rw [closest_low freq h]
    unfold wk_sidetone_code
    rw [if_pos h]
  · rcases le_or_lt 4000 freq with h4 | h4
    · rw [closest_high freq h4]
      unfold wk_sidetone_code
      rw [if_neg (by omega), if_pos h4]
    · rcases le_or_lt freq 1300 with hr | hr
      · have key := closest_mid0 (freq - 401).toNat (by omega)
        have he : 401 + (((freq - 401).toNat : Nat) : Int) = freq := by omega
        rw [he] at key
        exact key
      · rcases le_or_lt freq 2200 with hs | hs
        · have key := closest_mid1 (freq - 1301).toNat (by omega)
          have he : 1301 + (((freq - 1301).toNat : Nat) : Int) = freq := by omega
          rw [he] at key
          exact key
        · rcases le_or_lt freq 3100 with htt | htt
          · have key := closest_mid2 (freq - 2201).toNat (by omega)
            have he : 2201 + (((freq - 2201).toNat : Nat) : Int) = freq := by omega
            rw [he] at key
            exact key
          · have key := closest_mid3 (freq - 3101).toNat (by omega)
            have he : 3101 + (((freq - 3101).toNat : Nat) : Int) = freq := by omega
            rw [he] at key
            exact key

/-- C3: every escape-`'3'` frame whose argument parses as a decimal integer
raises `TypeError` (the source compares the argument STRING against the int
300 before converting it), performing no device write and no state change;
the handler never runs to completion. -/
theorem tone_handler_type_error (st : SessionState) (arg : List Char) (n : Int)
    (_h : pyInt? arg = some n) :
    handleEscape st '3' arg
      = ⟨st, [], [Log.setToneMsg, Log.toneArgMsg], some PyError.typeError⟩ := by
  rfl

/-- witness for `tone_handler_type_error` at the frame `ESC + "3" + "600"`. -/
theorem tone_handler_type_error_witness :
    pyInt? "600".toList = some 600
    ∧ handleEscape ⟨0, false, 0⟩ '3' "600".toList
        = ⟨⟨0, false, 0⟩, [], [Log.setToneMsg, Log.toneArgMsg], some PyError.typeError⟩ :=
  ⟨by decide, tone_handler_type_error ⟨0, false, 0⟩ "600".toList 600 (by decide)⟩

/-- C5 counterexample: with `pinMappingCorrected = false` and only
key2-enable set, the pinconfig byte is 8: bit 3 is set and bit 2 is clear,
refuting the claim that key2 sits at bit 2 when not corrected (the source
table `WK_PINCONFIG_KEY_BITS[False]` maps key1→bit 2 and key2→bit 3). -/
theorem pinconfig_key_bits_counterexample :
    pinconfig_data false ⟨false, false, true, false, .normal, 1⟩ = 8
    ∧ Nat.testBit (pinconfig_data false ⟨false, false, true, false, .normal, 1⟩) 2 = false
    ∧ Nat.testBit (pinconfig_data false ⟨false, false, true, false, .normal, 1⟩) 3 = true := by
  decide

/-- C5 (amended): the pinconfig byte places ultimatic-priority in bits 6-7,
hang-time in bits 4-5, KEY1-enable at bit 2 when not corrected and bit 3
when corrected, KEY2-enable at the complementary position (bit 3 when not
corrected, bit 2 when corrected), sidetone-enable at bit 1 and ptt-auto at
bit 0; the key1/key2 positions swap as a pair with `corrected`, never
independently. -/
theorem pinconfig_byte_layout (corrected : Bool) (c : PinConfig)
    (hh : c.hang_time = 1 ∨ c.hang_time = 2 ∨ c.hang_time = 4 ∨ c.hang_time = 8) :
    (pinconfig_data corrected c >>> 6) &&& 0b11
        = WK_ULTIMATIC_PRIORITY_CODES c.ultimatic_priority
    ∧ (pinconfig_data corrected c >>> 4) &&& 0b11 = WK_HANG_TIME_CODES c.hang_time
    ∧ Nat.testBit (pinconfig_data corrected c) (WK_PINCONFIG_KEY_BITS corrected 1)
        = c.key1_enable
    ∧ Nat.testBit (pinconfig_data corrected c) (WK_PINCONFIG_KEY_BITS corrected 2)
        = c.key2_enable
    ∧ WK_PINCONFIG_KEY_BITS corrected 1 = (if corrected then 3 else 2)
    ∧ WK_PINCONFIG_KEY_BITS corrected 2 = (if corrected then 2 else 3)
    ∧ Nat.testBit (pinconfig_data corrected c) 1 = c.sidetone_enable
    ∧ Nat.testBit (pinconfig_data corrected c) 0 = c.ptt_enable := by
  obtain ⟨s, k1, k2, p, u, ht⟩ := c
  dsimp only at hh ⊢
  rcases hh with rfl | rfl | rfl | rfl <;>
    cases corrected <;> cases s <;> cases k1 <;> cases k2 <;> cases p <;> cases u <;> decide

/-- witness for `pinconfig_byte_layout`: the startup default pinconfig
(key1 enabled, key2 disabled, sidetone on, hang time 1), uncorrected. -/
theorem pinconfig_byte_layout_witness :
    ((1 : Nat) = 1 ∨ (1 : Nat) = 2 ∨ (1 : Nat) = 4 ∨ (1 : Nat) = 8)
    ∧ ((pinconfig_data false ⟨true, true, false, false, .normal, 1⟩ >>> 6) &&& 0b11
          = WK_ULTIMATIC_PRIORITY_CODES UltimaticPriority.normal
       ∧ (pinconfig_data false ⟨true, true, false, false, .normal, 1⟩ >>> 4) &&& 0b11
          = WK_HANG_TIME_CODES 1
       ∧ Nat.testBit (pinconfig_data false ⟨true, true, false, false, .normal, 1⟩)
            (WK_PINCONFIG_KEY_BITS false 1) = true
       ∧ Nat.testBit (pinconfig_data false ⟨true, true, false, false, .normal, 1⟩)
            (WK_PINCONFIG_KEY_BITS false 2) = false
       ∧ WK_PINCONFIG_KEY_BITS false 1 = (if false then 3 else 2)
       ∧ WK_PINCONFIG_KEY_BITS false 2 = (if false then 2 else 3)
       ∧ Nat.testBit (pinconfig_data false ⟨true, true, false, false, .normal, 1⟩) 1 = true
       ∧ Nat.testBit (pinconfig_data false ⟨true, true, false, false, .normal, 1⟩) 0
          = false) :=
  ⟨Or.inl rfl,
    pinconfig_byte_layout false ⟨true, true, false, false, .normal, 1⟩ (Or.inl rfl)⟩

/-- C6 counterexample: at cwdaemon weighting 2 the source computes
`int(2*80/100) + 50 = int(1.6) + 50 = 51` (truncation toward zero), while
the claimed formula `round(2*(90-10)/(50-(-50))) + 50` gives 52. -/
theorem weighting_round_counterexample :
    winkeyer_weighting 2 = 51 ∧ winkeyer_weighting_round_spec 2 = 52 := by
  constructor
  · decide
  · unfold winkeyer_weighting_round_spec
    norm_num [round_eq]

/-- C6 (amended): on the cwdaemon domain [-50,50] the map equals
truncation-toward-zero of `value*(90-10)/(50-(-50))`, plus 50 (floor
division of `80*value` by 100 for nonnegative values, negated floor
division of the absolute value otherwise); in particular -50 ↦ 10,
0 ↦ 50, 50 ↦ 90. -/
theorem weighting_truncation_map (v : Int) (hv : v ∈ Finset.Icc (-50 : Int) 50) :
    (winkeyer_weighting v
      = (if 0 ≤ v then (80 * v).ediv 100 else -((80 * (-v)).ediv 100)) + 50)
    ∧ winkeyer_weighting (-50) = 10
    ∧ winkeyer_weighting 0 = 50
    ∧ winkeyer_weighting 50 = 90 := by
  rw [Finset.mem_Icc] at hv
  refine ⟨?_, by decide, by decide, by decide⟩
  have he : v = (((v + 50).toNat : Nat) : Int) - 50 := by omega
  rw [he]
  exact (weighting_tdiv_aux (v + 50).toNat (by omega))

/-- witness for `weighting_truncation_map` at value 2. -/
theorem weighting_truncation_map_witness :
    (2 : Int) ∈ Finset.Icc (-50 : Int) 50
    ∧ ((winkeyer_weighting 2
        = (if 0 ≤ (2 : Int) then (80 * (2 : Int)).ediv 100
           else -((80 * (-(2 : Int))).ediv 100)) + 50)
      ∧ winkeyer_weighting (-50) = 10
      ∧ winkeyer_weighting 0 = 50
      ∧ winkeyer_weighting 50 = 90) :=
  ⟨by decide, weighting_truncation_map 2 (by decide)⟩

/-- C10: every in-range cwdaemon weighting maps into [10,90], and for such
values `set_weighting` emits no out-of-range warning and writes the value
unclamped: the clamping branch is unreachable from an accepted escape-`'7'`
argument. -/
theorem weighting_in_range_no_clamp (v : Int) (hv : v ∈ Finset.Icc (-50 : Int) 50) :
    (10 ≤ winkeyer_weighting v ∧ winkeyer_weighting v ≤ 90)
    ∧ set_weighting (winkeyer_weighting v)
        = ([], [[0x03, (winkeyer_weighting v).toNat]]) := by
  rw [Finset.mem_Icc] at hv
  have he : v = (((v + 50).toNat : Nat) : Int) - 50 := by omega
  rw [he]
  exact weighting_range_aux (v + 50).toNat (by omega)

/-- witness for `weighting_in_range_no_clamp` at value -50 (the low edge). -/
theorem weighting_in_range_no_clamp_witness :
    (-50 : Int) ∈ Finset.Icc (-50 : Int) 50
    ∧ ((10 ≤ winkeyer_weighting (-50) ∧ winkeyer_weighting (-50) ≤ 90)
      ∧ set_weighting (winkeyer_weighting (-50))
          = ([], [[0x03, (winkeyer_weighting (-50)).toNat]])) :=
  ⟨by decide, weighting_in_range_no_clamp (-50) (by decide)⟩

/-! ## Claim theorems: frame handling -/

lemma speed_scan_zero (data : List Char) :
    speed_scan 0 data = .ok (0, data.filter (fun c => !(c == '+' || c == '-'))) := by
  induction data with
  | nil => rfl
  | cons c rest ih =>
    by_cases h1 : c = '+'
    · subst h1
      simp [speed_scan, ih]
    · by_cases h2 : c = '-'
      · subst h2
        simp [speed_scan, ih]
      · simp [speed_scan, ih, h1, h2]

theorem speed_zero_expansion (data : List Char) :
    speed_expand 0 data = .ok (data.filter (fun c => !(c == '+' || c == '-'))) := by
  unfold speed_expand
  split_ifs with h
  · rw [speed_scan_zero]
    simp
  · have h1 : ∀ a ∈ data, (!(a == '+' || a == '-')) = true := by
      intro a ha
      have hp : a ≠ '+' := fun e => h (Or.inl (e ▸ ha))
      have hm : a ≠ '-' := fun e => h (Or.inr (e ▸ ha))
      simp [hp, hm]
    rw [List.filter_eq_self.mpr h1]

theorem speed_zero_counterexample :
    speed_expand 0 "TEST+DE".toList = .ok "TESTDE".toList
    ∧ "TESTDE".toList ≠ "TEST+DE".toList := ⟨rfl, by decide⟩

lemma speed_scan_pos (data : List Char) : ∀ s : Int, 0 < s → s ≤ 99 →
    ∃ fs : Int, speed_scan s data = .ok (fs, specDeltaScan s data) ∧ 0 < fs ∧ fs ≤ 99 := by
  induction data with
  | nil => exact fun s h1 h2 => ⟨s, rfl, h1, h2⟩
  | cons c rest ih =>
    intro s h1 h2
    by_cases hp : c = '+'
    · subst hp
      have e1 : (if 97 < s then (99 : Int) else s + 2) = min (s + 2) 99 := by
        split_ifs <;> omega
      obtain ⟨fs, heq, hf1, hf2⟩ := ih (min (s + 2) 99) (by omega) (by omega)
      refine ⟨fs, ?_, hf1, hf2⟩
      have hch : pychr (min (s + 2) 99) = some (Char.ofNat (min (s + 2) 99).toNat) := by
        unfold pychr
        rw [if_pos (by omega)]
      simp only [speed_scan, specDeltaScan, if_pos rfl, if_pos h1.ne', e1, hch, heq]
      simp
    · by_cases hm : c = '-'
      · subst hm
        have e1 : (if s < 7 then (5 : Int) else s - 2) = max (s - 2) 5 := by
          split_ifs <;> omega
        obtain ⟨fs, heq, hf1, hf2⟩ := ih (max (s - 2) 5) (by omega) (by omega)
        refine ⟨fs, ?_, hf1, hf2⟩
        have hch : pychr (max (s - 2) 5) = some (Char.ofNat (max (s - 2) 5).toNat) := by
          unfold pychr
          rw [if_pos (by omega)]
        simp only [speed_scan, specDeltaScan, if_pos rfl, if_pos h1.ne', e1, hch, heq]
        simp
      · obtain ⟨fs, heq, hf1, hf2⟩ := ih s h1 h2
        refine ⟨fs, ?_, hf1, hf2⟩
        simp only [speed_scan, specDeltaScan, hp, hm, heq]
        simp

theorem speed_delta_expansion_spec (s : Int) (data : List Char)
    (h1 : 0 < s) (h2 : s ≤ 99) (h3 : '+' ∈ data ∨ '-' ∈ data) :
    speed_expand s data = .ok (specDeltaScan s data ++ ['\x1e']) := by
  obtain ⟨fs, heq, hf1, _⟩ := speed_scan_pos data s h1 h2
  unfold speed_expand
  rw [if_pos h3, heq]
  simp [hf1.ne']

theorem speed_delta_expansion_spec_witness :
    (0 : Int) < 20 ∧ (20 : Int) ≤ 99
    ∧ ('+' ∈ "TEST+DE".toList ∨ '-' ∈ "TEST+DE".toList)
    ∧ speed_expand 20 "TEST+DE".toList
        = .ok (specDeltaScan 20 "TEST+DE".toList ++ ['\x1e']) :=
  ⟨by decide, by decide, by decide,
    speed_delta_expansion_spec 20 "TEST+DE".toList (by decide) (by decide) (by decide)⟩

lemma handleText_state (st : SessionState) (d : List Char) :
    (handleText st d).state = st := by
  unfold handleText
  dsimp only
  split
  · split
    · rfl
    · split <;> rfl
  · rfl

theorem text_frame_preserves_state (st : SessionState) (raw : List Char)
    (c : Char) (rest : List Char)
    (h : nullTruncate raw = c :: rest) (hc : c ≠ ESC) :
    (handle st raw).state = st := by
  unfold handle
  dsimp only
  rw [h]
  dsimp only
  rw [if_neg hc]
  exact handleText_state st (c :: rest)

theorem text_frame_preserves_state_witness :
    nullTruncate "HI".toList = 'H' :: ['I']
    ∧ 'H' ≠ ESC
    ∧ (handle ⟨0, false, 0⟩ "HI".toList).state = ⟨0, false, 0⟩ :=
  ⟨by decide, by decide,
    text_frame_preserves_state ⟨0, false, 0⟩ "HI".toList 'H' ['I'] (by decide) (by decide)⟩

lemma speed_scan_err_val (data : List Char) : ∀ (s : Int) (e : PyError),
    speed_scan s data = .error e → e = .valueError := by
  induction data with
  | nil => intro s e h; simp [speed_scan] at h
  | cons c rest ih =>
    intro s e
    by_cases hp : c = '+'
    · subst hp
      simp only [speed_scan, if_pos rfl]
      by_cases h2 : s ≠ 0
      · rw [if_pos h2]
        rcases hc : pychr (if 97 < s then 99 else s + 2) with _ | ch
        · intro h
          injection h with h
          exact h.symm
        · rcases hs : speed_scan (if 97 < s then 99 else s + 2) rest with e2 | pr
          · intro h
            injection h with h
            exact h ▸ ih _ _ hs
          · obtain ⟨fs, out⟩ := pr
            intro h
            cases h
      · rw [if_neg h2]
        exact ih s e
    · by_cases hm : c = '-'
      · subst hm
        simp only [speed_scan, if_pos rfl, if_neg hp]
        by_cases h2 : s ≠ 0
        · rw [if_pos h2]
          rcases hc : pychr (if s < 7 then 5 else s - 2) with _ | ch
          · intro h
            injection h with h
            exact h.symm
          · rcases hs : speed_scan (if s < 7 then 5 else s - 2) rest with e2 | pr
            · intro h
              injection h with h
              exact h ▸ ih _ _ hs
            · obtain ⟨fs, out⟩ := pr
              intro h
              cases h
        · rw [if_neg h2]
          exact ih s e
      · simp only [speed_scan, if_neg hp, if_neg hm]
        rcases hs : speed_scan s rest with e2 | pr
        · intro h
          injection h with h
          exact h ▸ ih _ _ hs
        · obtain ⟨fs, out⟩ := pr
          intro h
          cases h

lemma handleText_err (st : SessionState) (d : List Char) :
    (handleText st d).err ≠ some .indexError := by
  unfold handleText
  dsimp only
  split
  · rcases hs : speed_scan st.speed (expandProsigns (rstrip d)) with e | pr
    · dsimp only
      intro h
      injection h with h
      exact absurd (speed_scan_err_val _ _ _ hs) (by rw [h]; decide)
    · obtain ⟨fs, out⟩ := pr
      dsimp only
      split <;> simp
  · simp

lemma escape2_err (st : SessionState) (arg : List Char) :
    (escape2 st arg).err ≠ some .indexError := by
  unfold escape2
  rcases pyInt? arg with _ | n
  · simp
  · dsimp only
    split_ifs <;> simp

lemma escape3_err (st : SessionState) (arg : List Char) :
    (escape3 st arg).err ≠ some .indexError := by
  simp [escape3]

lemma escape7_err (st : SessionState) (arg : List Char) :
    (escape7 st arg).err ≠ some .indexError := by
  unfold escape7
  rcases pyInt? arg with _ | n
  · simp
  · dsimp only
    split_ifs <;> simp

lemma escapeA_err (st : SessionState) (arg : List Char) :
    (escapeA st arg).err ≠ some .indexError := by
  unfold escapeA
  split_ifs <;> simp

lemma escapeC_err (st : SessionState) (arg : List Char) :
    (escapeC st arg).err ≠ some .indexError := by
  unfold escapeC
  rcases pyInt? arg with _ | n
  · simp
  · dsimp only
    split_ifs <;> simp

lemma escapeD_err (st : SessionState) (arg : List Char) :
    (escapeD st arg).err ≠ some .indexError := by
  unfold escapeD
  rcases pyInt? arg with _ | n <;> simp

lemma handleEscape_err (st : SessionState) (cmd : Char) (arg : List Char) :
    (handleEscape st cmd arg).err ≠ some .indexError := by
  by_cases h00 : cmd = '0'
  · subst h00
    simp [handleEscape]
  by_cases h02 : cmd = '2'
  · subst h02
    simpa [handleEscape] using escape2_err st arg
  by_cases h03 : cmd = '3'
  · subst h03
    simpa [handleEscape] using escape3_err st arg
  by_cases h04 : cmd = '4'
  · subst h04
    simp [handleEscape]
  by_cases h05 : cmd = '5'
  · subst h05
    simp [handleEscape]
  by_cases h06 : cmd = '6'
  · subst h06
    simp [handleEscape]
  by_cases h07 : cmd = '7'
  · subst h07
    simpa [handleEscape] using escape7_err st arg
  by_cases h08 : cmd = '8'
  · subst h08
    simp [handleEscape]
  by_cases h09 : cmd = '9'
  · subst h09
    simp [handleEscape]
  by_cases ha : cmd = 'a'
  · subst ha
    simpa [handleEscape] using escapeA_err st arg
  by_cases hb : cmd = 'b'
  · subst hb
    simp [handleEscape]
  by_cases hc : cmd = 'c'
  · subst hc
    simpa [handleEscape] using escapeC_err st arg
  by_cases hd : cmd = 'd'
  · subst hd
    simpa [handleEscape] using escapeD_err st arg
  by_cases he : cmd = 'e'
  · subst he
    simp [handleEscape]
  by_cases hf : cmd = 'f'
  · subst hf
    simp [handleEscape]
  by_cases hg : cmd = 'g'
  · subst hg
    simp [handleEscape]
  by_cases hh : cmd = 'h'
  · subst hh
    simp [handleEscape]
  simp [handleEscape, h00, h02, h03, h04, h05, h06, h07, h08, h09, ha, hb, hc, hd, he, hf, hg, hh]

theorem classification_dispatch_iff (st : SessionState) (raw : List Char) :
    (handle st raw).err = some PyError.indexError
      ↔ (nullTruncate raw = [] ∨ nullTruncate raw = [ESC]) := by
  unfold handle
  dsimp only
  rcases h : nullTruncate raw with _ | ⟨c, rest⟩
  · simp
  · dsimp only
    by_cases hc : c = ESC
    · subst hc
      rcases rest with _ | ⟨cmd, arg⟩
      · simp
      · rw [if_pos rfl]
        dsimp only
        simp [handleEscape_err st cmd arg]
    · rw [if_neg hc]
      dsimp only
      simp [hc, handleText_err st (c :: rest)]

theorem classification_counterexample :
    (handle ⟨0, false, 0⟩ []).err = some PyError.indexError
    ∧ (handle ⟨0, false, 0⟩ [NUL]).err = some PyError.indexError
    ∧ (handle ⟨0, false, 0⟩ [ESC]).err = some PyError.indexError :=
  ⟨rfl, rfl, rfl⟩

theorem ptt_manual_command_policy (st : SessionState) (arg : List Char)
    (hd : 0 ≤ st.delay) :
    (((handleEscape st 'a' arg).writes = [] ∧ (handleEscape st 'a' arg).state = st
        ∧ (handleEscape st 'a' arg).logs ≠ [])
      ↔ (st.delay ≠ 0 ∨ (arg ≠ ['0'] ∧ arg ≠ ['1'])))
    ∧ (st.delay = 0 → arg = ['0'] →
        ((st.ptt = true →
            handleEscape st 'a' arg = ⟨{ st with ptt := false }, [[0x18, 0]], [], none⟩)
         ∧ (st.ptt = false → handleEscape st 'a' arg = ⟨st, [], [], none⟩)))
    ∧ (st.delay = 0 → arg = ['1'] →
        ((st.ptt = false →
            handleEscape st 'a' arg = ⟨{ st with ptt := true }, [[0x18, 1]], [], none⟩)
         ∧ (st.ptt = true → handleEscape st 'a' arg = ⟨st, [], [], none⟩))) := by
  have hdis : handleEscape st 'a' arg = escapeA st arg := rfl
  rw [hdis]
  unfold escapeA
  by_cases h0 : arg = ['0']
  · subst h0
    by_cases hdel : st.delay = 0
    · cases hptt : st.ptt <;>
        simp [hdel, hptt]
    · have hpos : 0 < st.delay := by omega
      simp [hdel, hpos]
  · by_cases h1 : arg = ['1']
    · subst h1
      by_cases hdel : st.delay = 0
      · cases hptt : st.ptt <;>
          simp [hdel, hptt]
      · have hpos : 0 < st.delay := by omega
        simp [hdel, hpos]
    · simp [h0, h1]

theorem ptt_manual_command_policy_witness :
    (0 : Int) ≤ (SessionState.mk 0 false 0).delay
    ∧ ((((handleEscape (SessionState.mk 0 false 0) 'a' ['1']).writes = []
          ∧ (handleEscape (SessionState.mk 0 false 0) 'a' ['1']).state = SessionState.mk 0 false 0
          ∧ (handleEscape (SessionState.mk 0 false 0) 'a' ['1']).logs ≠ [])
        ↔ ((SessionState.mk 0 false 0).delay ≠ 0
            ∨ ((['1'] : List Char) ≠ ['0'] ∧ (['1'] : List Char) ≠ ['1'])))
      ∧ ((SessionState.mk 0 false 0).delay = 0 → (['1'] : List Char) = ['0'] →
          (((SessionState.mk 0 false 0).ptt = true →
              handleEscape (SessionState.mk 0 false 0) 'a' ['1']
                = ⟨{ SessionState.mk 0 false 0 with ptt := false }, [[0x18, 0]], [], none⟩)
           ∧ ((SessionState.mk 0 false 0).ptt = false →
              handleEscape (SessionState.mk 0 false 0) 'a' ['1']
                = ⟨SessionState.mk 0 false 0, [], [], none⟩)))
      ∧ ((SessionState.mk 0 false 0).delay = 0 → (['1'] : List Char) = ['1'] →
          (((SessionState.mk 0 false 0).ptt = false →
              handleEscape (SessionState.mk 0 false 0) 'a' ['1']
                = ⟨{ SessionState.mk 0 false 0 with ptt := true }, [[0x18, 1]], [], none⟩)
           ∧ ((SessionState.mk 0 false 0).ptt = true →
              handleEscape (SessionState.mk 0 false 0) 'a' ['1']
                = ⟨SessionState.mk 0 false 0, [], [], none⟩)))) :=
  ⟨by decide, ptt_manual_command_policy (SessionState.mk 0 false 0) ['1'] (by decide)⟩

end WKD
